import Mathlib

/-!
Pet Haven filtering system (`js/filters.js`), with the field validation and
progress indicators of `js/forms.js` and the fallback image of
`js/lazy-loading.js`.

A shallow embedding of the filter and search engine of the Pet Haven listing
page and of those helpers, followed by the theorems that settle the
specification's claims.

Modelling conventions

* A JavaScript string is a Lean `String`.
* `String.prototype.toLowerCase` is a built-in of the JavaScript runtime, not
  code of the repository: every function that calls it takes it as its first
  argument, `toLowerCase`, and every general theorem holds for whichever
  function that is.  The evaluations on concrete documents pass
  `latin1LowerCase`, which is the built-in on the Latin-1 text they use.
* `getAttribute` returns `null` for an absent attribute: an attribute is an
  `Option String`.
* `querySelector` returns `null` for an absent element: the text of the
  `.pet-name` / `.pet-description` element of a card and the text of the three
  count displays are `Option String`.
* Reading a property of `null` raises a `TypeError`, which aborts the running
  event handler and leaves the document as mutated so far.
-/

namespace PetHaven

/-! ## Document model -/

/-- One `.pet-card` element, with the parts of it that `filters.js` reads or writes. -/
structure Card where
  /-- Attribute `data-species`. -/
  species : Option String
  /-- Attribute `data-age`. -/
  age : Option String
  /-- Attribute `data-size`. -/
  size : Option String
  /-- Attribute `data-personality`. -/
  personality : Option String
  /-- Attribute `data-status`. -/
  status : Option String
  /-- Text content of the descendant `.pet-name`, when there is one. -/
  petName : Option String
  /-- Text content of the descendant `.pet-description`, when there is one. -/
  petDescription : Option String
  /-- Whether the card matches `.available-section .pet-card`. -/
  inAvailable : Bool
  /-- Whether the card matches `.adopted-section .pet-card`. -/
  inAdopted : Bool
  /-- Whether the class list contains `hidden`. -/
  hidden : Bool
  /-- Inline `style.display`. -/
  display : String
  deriving DecidableEq, Repr

/-- An `input` element of the page. -/
structure Input where
  /-- Attribute `name`. -/
  name : String
  /-- Attribute `value`. -/
  value : String
  /-- Property `checked`. -/
  checked : Bool
  /-- Whether the element matches `.filter-option input[type="checkbox"]`. -/
  filterOption : Bool
  deriving DecidableEq, Repr

/-- The object built by `getActiveFilters`. -/
structure Filters where
  species : List String
  age : List String
  size : List String
  personality : List String
  deriving DecidableEq, Repr

/-- The part of the document the filtering system touches. -/
structure Page where
  /-- Elements matching `.pet-card`, in document order. -/
  cards : List Card
  /-- The `input` elements carrying a `checked` state, in document order. -/
  inputs : List Input
  /-- Value of the element with id `petSearch`, when there is one. -/
  petSearch : Option String
  /-- Text of the first `.available-section .section-count`, when there is one. -/
  availableCount : Option String
  /-- Text of the first `.adopted-section .section-count`, when there is one. -/
  adoptedCount : Option String
  /-- Text of the first `.total-count`, when there is one. -/
  totalCount : Option String
  deriving DecidableEq, Repr

/-! ## String primitives -/

/-- Lower case of a character of the Latin-1 range: `A`..`Z`, `À`..`Ö` and
`Ø`..`Þ` move up by 32, every other character is left as it is. -/
def latin1LowerChar (c : Char) : Char :=
  let n := c.toNat
  if (65 ≤ n ∧ n ≤ 90) ∨ (192 ≤ n ∧ n ≤ 214) ∨ (216 ≤ n ∧ n ≤ 222) then Char.ofNat (n + 32)
  else c

/-- What `String.prototype.toLowerCase` does to a string whose characters lie
in the Latin-1 range U+0000..U+00FF.  It stands for the built-in in the
evaluations on concrete documents, whose text lies in that range throughout. -/
def latin1LowerCase (s : String) : String := ⟨s.toList.map latin1LowerChar⟩

/-- `String.prototype.includes`: `t` occurs in `s` as a contiguous run. -/
def strIncludes (s t : String) : Bool := decide (t.toList <:+: s.toList)

/-- `Array.prototype.includes` on an array of strings, searched for a value
that is a string or `null`. -/
def arrIncludes (xs : List String) (v : Option String) : Bool :=
  xs.any (fun x => decide (some x = v))

/-! ## `getActiveFilters` and `petMatchesFilters` -/

/-- Values of the inputs matching `input[name="n"]:checked`, in document order. -/
def checkedValues (n : String) (inputs : List Input) : List String :=
  (inputs.filter (fun i => decide (i.name = n) && i.checked)).map (fun i => i.value)

/-- `getActiveFilters()`. -/
def getActiveFilters (p : Page) : Filters :=
  { species := checkedValues "species" p.inputs
    age := checkedValues "age" p.inputs
    size := checkedValues "size" p.inputs
    personality := checkedValues "personality" p.inputs }

/-- `petMatchesFilters(petCard, filters)`, with its early returns. -/
def petMatchesFilters (toLowerCase : String → String) (petCard : Card) (filters : Filters) :
    Bool :=
  let petSpecies := petCard.species
  let petAge := petCard.age
  let petSize := petCard.size
  -- `getAttribute('data-personality') || ''`: `null` and `''` both give `''`
  let petPersonality := petCard.personality.getD ""
  if filters.species.length > 0 && !arrIncludes filters.species petSpecies then false
  else if filters.age.length > 0 && !arrIncludes filters.age petAge then false
  else if filters.size.length > 0 && !arrIncludes filters.size petSize then false
  else if filters.personality.length > 0 &&
      !filters.personality.any
        (fun trait => strIncludes (toLowerCase petPersonality) (toLowerCase trait)) then false
  else true

/-! ## `applyFilters`, `showAllPets`, `updatePetCounts` -/

/-- `applyFilters()`: every card receives the hidden mark and the display value
its filter verdict calls for. -/
def applyFilters (toLowerCase : String → String) (p : Page) : Page :=
  let activeFilters := getActiveFilters p
  { p with
    cards := p.cards.map (fun card =>
      let shouldShow := petMatchesFilters toLowerCase card activeFilters
      if shouldShow then { card with hidden := false, display := "block" }
      else { card with hidden := true, display := "none" }) }

/-- `showAllPets()`. -/
def showAllPets (p : Page) : Page :=
  { p with cards := p.cards.map (fun card => { card with hidden := false, display := "block" }) }

/-- Cards matching `.available-section .pet-card:not(.hidden)`. -/
def availablePets (p : Page) : List Card :=
  p.cards.filter (fun card => card.inAvailable && !card.hidden)

/-- Cards matching `.adopted-section .pet-card:not(.hidden)`. -/
def adoptedPets (p : Page) : List Card :=
  p.cards.filter (fun card => card.inAdopted && !card.hidden)

/-- `updatePetCounts()`: each count display that exists receives its new text. -/
def updatePetCounts (p : Page) : Page :=
  { p with
    availableCount :=
      p.availableCount.map (fun _ => toString (availablePets p).length ++ " Available")
    adoptedCount :=
      p.adoptedCount.map (fun _ => toString (adoptedPets p).length ++ " Adopted")
    totalCount :=
      p.totalCount.map (fun _ =>
        toString ((availablePets p).length + (adoptedPets p).length) ++ " Total") }

/-- `handleFilterChange(event)`. -/
def handleFilterChange (toLowerCase : String → String) (p : Page) : Page :=
  updatePetCounts (applyFilters toLowerCase p)

/-! ## `handleSearch` -/

/-- Body of the `forEach` callback of `handleSearch` for one card; `none` is the
`TypeError` of reading `textContent` of a missing `.pet-name`. -/
def searchCard (toLowerCase : String → String) (searchTerm : String) (card : Card) :
    Option Card :=
  match card.petName with
  | none => none
  | some nameText =>
    let petName := toLowerCase nameText
    let petDescription :=
      match card.petDescription with
      | some text => toLowerCase text
      | none => ""
    let found := strIncludes petName searchTerm || strIncludes petDescription searchTerm
    if decide (searchTerm = "") || found then
      -- Don't show if hidden by other filters
      if !card.hidden then some { card with display := "block" } else some card
    else some { card with display := "none" }

/-- The `forEach` loop of `handleSearch`: the cards as left by the loop, and
whether it was aborted by a `TypeError` (the cards from the failing one on are
then untouched). -/
def searchCards (toLowerCase : String → String) (searchTerm : String) :
    List Card → List Card × Bool
  | [] => ([], false)
  | card :: rest =>
    match searchCard toLowerCase searchTerm card with
    | none => (card :: rest, true)
    | some card' =>
      ((card' :: (searchCards toLowerCase searchTerm rest).1),
        (searchCards toLowerCase searchTerm rest).2)

/-- What an event handler leaves behind: the document, and whether the handler
was aborted by an exception. -/
structure Outcome where
  page : Page
  raised : Bool
  deriving DecidableEq, Repr

/-- `handleSearch(event)`, where `value` is `event.target.value`. -/
def handleSearch (toLowerCase : String → String) (value : String) (p : Page) : Outcome :=
  let searchTerm := toLowerCase value
  let looped := searchCards toLowerCase searchTerm p.cards
  if looped.2 then { page := { p with cards := looped.1 }, raised := true }
  else { page := updatePetCounts { p with cards := looped.1 }, raised := false }

/-! ## `clearAllFilters` -/

/-- `clearAllFilters()`. -/
def clearAllFilters (p : Page) : Page :=
  let unchecked : Page :=
    { p with
      inputs := p.inputs.map (fun checkbox =>
        if checkbox.filterOption then { checkbox with checked := false } else checkbox) }
  let cleared : Page := { unchecked with petSearch := unchecked.petSearch.map (fun _ => "") }
  updatePetCounts (showAllPets cleared)

/-! ## User events

`initializeFilters` attaches `handleFilterChange` to the inputs matching
`.filter-option input[type="checkbox"]`, and `setupFilterEventListeners`
attaches `handleSearch` to `#petSearch` when that element exists.  An exception
raised by a handler ends that handler only. -/

/-- A user action on the page. -/
inductive Event where
  /-- The user toggles the input at the given position. -/
  | change (index : Nat)
  /-- The user edits the search box, which then holds the given text. -/
  | input (value : String)
  deriving DecidableEq, Repr

/-- Flip the `checked` state of the input at position `index`. -/
def toggleInput (index : Nat) (inputs : List Input) : List Input :=
  inputs.modify (fun i => { i with checked := !i.checked }) index

/-- The document after the browser has performed one user action and run the
listener attached to its target, if any. -/
def dispatch (toLowerCase : String → String) (p : Page) : Event → Page
  | .change index =>
    let toggled : Page := { p with inputs := toggleInput index p.inputs }
    match p.inputs[index]? with
    | some i => if i.filterOption then handleFilterChange toLowerCase toggled else toggled
    | none => p
  | .input value =>
    match p.petSearch with
    | some _ => (handleSearch toLowerCase value { p with petSearch := some value }).page
    | none => p

/-- The document after a sequence of user actions, oldest first. -/
def run (toLowerCase : String → String) (p : Page) (events : List Event) : Page :=
  events.foldl (dispatch toLowerCase) p

/-- Whether a card is rendered: its inline display is not `none`. -/
def displayed (card : Card) : Bool := decide (card.display ≠ "none")

/-! ## Order of evaluation of the four dimensions -/

/-- The four filter dimensions. -/
inductive Dimension where
  | species
  | age
  | size
  | personality
  deriving DecidableEq, Repr

/-- The check `petMatchesFilters` makes for one dimension, taken on its own:
`true` when that block of the function does not return `false`. -/
def passesDimension (toLowerCase : String → String) (card : Card) (filters : Filters) :
    Dimension → Bool
  | .species => !(filters.species.length > 0 && !arrIncludes filters.species card.species)
  | .age => !(filters.age.length > 0 && !arrIncludes filters.age card.age)
  | .size => !(filters.size.length > 0 && !arrIncludes filters.size card.size)
  | .personality =>
    !(filters.personality.length > 0 &&
      !filters.personality.any (fun trait =>
        strIncludes (toLowerCase (card.personality.getD "")) (toLowerCase trait)))

/-- The four checks run one after the other in the given order, stopping at the
first that fails. -/
def matchesInOrder (toLowerCase : String → String) (order : List Dimension) (card : Card)
    (filters : Filters) : Bool :=
  order.all (passesDimension toLowerCase card filters)

/-! ## Concrete documents -/

/-- A card with the given species, name and description, in the Available
section when `available` holds and in the Adopted section otherwise. -/
def sampleCard (species name description : String) (available : Bool) : Card :=
  { species := some species, age := none, size := none, personality := none, status := none,
    petName := some name, petDescription := some description, inAvailable := available,
    inAdopted := !available, hidden := false, display := "" }

/-- A dog whose personality text is `Playful, Gentle`. -/
def playfulCard : Card :=
  { sampleCard "dog" "Buddy" "A happy dog" true with personality := some "Playful, Gentle" }

/-- A dog whose personality text is `Énergique, Doux`. -/
def energiqueCard : Card :=
  { sampleCard "dog" "Filou" "Un chien joyeux" true with personality := some "Énergique, Doux" }

/-- A page whose only card is named `éclair`. -/
def eclairPage : Page :=
  { cards := [sampleCard "cat" "éclair" "chat vif" true]
    inputs := []
    petSearch := some ""
    availableCount := some "1 Available"
    adoptedCount := some "0 Adopted"
    totalCount := some "1 Total" }

/-- A card without any `data-` attribute. -/
def bareCard : Card :=
  { species := none, age := none, size := none, personality := none, status := none,
    petName := some "Stray", petDescription := none, inAvailable := true, inAdopted := false,
    hidden := false, display := "" }

/-- Five cards: three dogs (Fluffy and Rex available, Max adopted) and two
available cats; one checkbox per species; a search box and the three count
displays. -/
def shelterPage : Page :=
  { cards :=
      [sampleCard "dog" "Fluffy" "soft coat" true, sampleCard "dog" "Rex" "loyal" true,
       sampleCard "dog" "Max" "calm" false, sampleCard "cat" "Tom" "shy" true,
       sampleCard "cat" "Kit" "sleepy" true]
    inputs :=
      [{ name := "species", value := "dog", checked := false, filterOption := true },
       { name := "species", value := "cat", checked := false, filterOption := true }]
    petSearch := some ""
    availableCount := some ""
    adoptedCount := some ""
    totalCount := some "" }

/-- The term "after trimming surrounding whitespace", in the words of the
specification of the search: `String.prototype.trim`, which `handleSearch`
does not call. -/
def trimmed (s : String) : String :=
  ⟨((s.toList.dropWhile Char.isWhitespace).reverse.dropWhile Char.isWhitespace).reverse⟩

/-- The parts of a card that no function of `filters.js` writes: everything
but the hidden mark and the inline display. -/
def Card.fixed (card : Card) : Card :=
  { card with hidden := false, display := "" }

/-- What no user action changes: the cards apart from their hidden mark and
display, and which of the search box and the three count displays exist. -/
def Page.frame (p : Page) : List Card × Bool × Bool × Bool × Bool :=
  (p.cards.map Card.fixed, p.petSearch.isSome, p.availableCount.isSome,
    p.adoptedCount.isSome, p.totalCount.isSome)

/-- The search verdict in the words of the specification: a card is
search-hidden when the term, trimmed and lower-cased, is non-empty and occurs
neither in the lower-cased name nor in the lower-cased description. -/
def searchHiddenAsSpecified (toLowerCase : String → String) (value : String) (card : Card) :
    Bool :=
  let term := toLowerCase (trimmed value)
  decide (term ≠ "") &&
    !strIncludes (toLowerCase (card.petName.getD "")) term &&
    !strIncludes (toLowerCase (card.petDescription.getD "")) term


/-- A page whose first card has no `.pet-name` element and whose second card
is the dog Rex. -/
def namelessPage : Page :=
  { cards :=
      [{ sampleCard "dog" "" "a quiet dog" true with petName := none },
       sampleCard "dog" "Rex" "loyal" true]
    inputs := []
    petSearch := some ""
    availableCount := some "2 Available"
    adoptedCount := some "0 Adopted"
    totalCount := some "2 Total" }

/-- A page whose only card has a name element and no `.pet-description`. -/
def undescribedPage : Page :=
  { cards := [{ sampleCard "dog" "Rex" "" true with petDescription := none }]
    inputs := []
    petSearch := some ""
    availableCount := some "1 Available"
    adoptedCount := some "0 Adopted"
    totalCount := some "1 Total" }

/-! ## Form validation (`js/forms.js`) -/

/-- White space and line terminators of ECMAScript: what `String.prototype.trim`
strips, what `parseInt` skips and what `\s` matches. -/
def isWhiteSpace (c : Char) : Bool :=
  let n := c.toNat
  n == 9 || n == 10 || n == 11 || n == 12 || n == 13 || n == 32 || n == 160 || n == 5760 ||
    (decide (8192 ≤ n) && decide (n ≤ 8202)) || n == 8232 || n == 8233 || n == 8239 ||
    n == 8287 || n == 12288 || n == 65279

/-- `String.prototype.trim`. -/
def trim (s : String) : String :=
  ⟨((s.toList.dropWhile isWhiteSpace).reverse.dropWhile isWhiteSpace).reverse⟩

/-- The class `[^\s@]` of the email pattern. -/
def isAddressChar (c : Char) : Bool := !isWhiteSpace c && c != '@'

/-- `window.petHavenValidation.email.pattern.test(value)`, the pattern being
`/^[^\s@]+@[^\s@]+\.[^\s@]+$/`: a non-empty run of address characters, an `@`,
and a run of address characters holding a dot that is neither its first nor
its last character. -/
def emailPattern (value : String) : Bool :=
  let cs := value.toList
  match cs.dropWhile isAddressChar with
  | '@' :: domain =>
    !(cs.takeWhile isAddressChar).isEmpty && domain.all isAddressChar &&
      ((domain.drop 1).dropLast).contains '.'
  | _ => false

/-- The class `[\d\s\-\(\)]` of the phone pattern. -/
def isPhoneChar (c : Char) : Bool :=
  c.isDigit || isWhiteSpace c || c == '-' || c == '(' || c == ')'

/-- `window.petHavenValidation.phone.pattern.test(value)`, the pattern being
`/^[\+]?[\d\s\-\(\)]{8,}$/`. -/
def phonePattern (value : String) : Bool :=
  let cs := value.toList
  let rest :=
    match cs with
    | '+' :: r => r
    | _ => cs
  rest.all isPhoneChar && decide (8 ≤ rest.length)

/-- Value of a character as a digit of the given radix, when it is one. -/
def digitValue (radix : Nat) (c : Char) : Option Nat :=
  let n := c.toNat
  let v : Option Nat :=
    if 48 ≤ n ∧ n ≤ 57 then some (n - 48)
    else if 97 ≤ n ∧ n ≤ 122 then some (n - 97 + 10)
    else if 65 ≤ n ∧ n ≤ 90 then some (n - 65 + 10)
    else none
  v.filter (fun d => decide (d < radix))

/-- The digits of the given radix at the head of a character list. -/
def leadingDigits (radix : Nat) : List Char → List Nat
  | [] => []
  | c :: rest =>
    match digitValue radix c with
    | some d => d :: leadingDigits radix rest
    | none => []

/-- `parseInt(string)` without a radix; `none` is `NaN`.  Leading white space is
skipped, a sign is read, a `0x` or `0X` switches to radix 16, and the longest
run of digits is converted; no digit at all gives `NaN`. -/
def parseInt (s : String) : Option Int :=
  let cs := s.toList.dropWhile isWhiteSpace
  let negative : Bool :=
    match cs with
    | '-' :: _ => true
    | _ => false
  let unsigned : List Char :=
    match cs with
    | '-' :: r => r
    | '+' :: r => r
    | _ => cs
  let radix : Nat :=
    match unsigned with
    | '0' :: 'x' :: _ => 16
    | '0' :: 'X' :: _ => 16
    | _ => 10
  let body : List Char :=
    match unsigned with
    | '0' :: 'x' :: r => r
    | '0' :: 'X' :: r => r
    | _ => unsigned
  let digits := leadingDigits radix body
  if digits.isEmpty then none
  else
    let magnitude : Int := (digits.foldl (fun acc d => acc * radix + d) 0 : Nat)
    some (if negative then -magnitude else magnitude)

/-- The comparison `age < bound` of JavaScript numbers, false for `NaN`. -/
def numberLt (age : Option Int) (bound : Int) : Bool :=
  match age with
  | some n => decide (n < bound)
  | none => false

/-- The comparison `age > bound` of JavaScript numbers, false for `NaN`. -/
def numberGt (age : Option Int) (bound : Int) : Bool :=
  match age with
  | some n => decide (n > bound)
  | none => false

/-- A form field, as `validateField` reads it. -/
structure Field where
  /-- Property `name`. -/
  name : String
  /-- Property `type`. -/
  fieldType : String
  /-- Property `value`. -/
  value : String
  /-- Whether the attribute `required` is present. -/
  required : Bool
  deriving DecidableEq, Repr

/-- What `validateField` returns, and the message it hands to `showFieldError`
when the field is not valid. -/
structure Validation where
  isValid : Bool
  errorMessage : String
  deriving DecidableEq, Repr

/-- `validateField(event)`, where `field` is `event.target`. -/
def validateField (field : Field) : Validation :=
  let value := trim field.value
  let fieldType := field.fieldType
  let isRequired := field.required
  let start : Validation := { isValid := true, errorMessage := "" }
  -- Check if required field is empty
  let afterRequired : Validation :=
    if isRequired && decide (value = "") then
      { isValid := false, errorMessage := "This field is required" }
    else start
  -- Validate specific field types
  let afterEmail : Validation :=
    if decide (value ≠ "") && decide (fieldType = "email") && !emailPattern value then
      { isValid := false, errorMessage := "Please enter a valid email address" }
    else afterRequired
  let afterPhone : Validation :=
    if decide (value ≠ "") && decide (fieldType = "tel") && !phonePattern value then
      { isValid := false, errorMessage := "Please enter a valid phone number" }
    else afterEmail
  -- Custom validation for specific fields
  if decide (field.name = "age") && decide (value ≠ "") then
    let age := parseInt value
    if numberLt age 18 || numberGt age 100 then
      { isValid := false, errorMessage := "Age must be between 18 and 100" }
    else afterPhone
  else afterPhone

/-- A text field named `age` holding the given text. -/
def ageField (value : String) : Field :=
  { name := "age", fieldType := "text", value := value, required := true }

/-! ## Progress indicators (`js/forms.js`) -/

/-- `getCurrentStep()`, where `url` is `window.location.pathname`. -/
def getCurrentStep (url : String) : Int :=
  if strIncludes url "application" then 1
  else if strIncludes url "interview" then 2
  else if strIncludes url "meet-greet" then 3
  else if strIncludes url "adoption" then 4
  else 1

/-- `classList.add(token)` on the token set of an element. -/
def classAdd (token : String) (classes : List String) : List String :=
  if classes.contains token then classes else classes ++ [token]

/-- `classList.remove(...tokens)` on the token set of an element. -/
def classRemove (tokens : List String) (classes : List String) : List String :=
  classes.filter (fun token => !tokens.contains token)

/-- Body of the `forEach` callback of `updateProgressIndicators` for the step
at position `index`, given as its class list. -/
def updateStep (currentStep : Int) (index : Nat) (step : List String) : List String :=
  let stepNumber : Int := (index : Int) + 1
  if stepNumber < currentStep then
    classRemove ["active", "pending"] (classAdd "completed" step)
  else if stepNumber = currentStep then
    classRemove ["completed", "pending"] (classAdd "active" step)
  else
    classRemove ["completed", "active"] (classAdd "pending" step)

/-- The `forEach` loop of `updateProgressIndicators` over the steps from
position `index` on. -/
def updateStepsFrom (currentStep : Int) : Nat → List (List String) → List (List String)
  | _, [] => []
  | index, step :: rest =>
    updateStep currentStep index step :: updateStepsFrom currentStep (index + 1) rest

/-- `updateProgressIndicators(currentStep)`, where `steps` are the class lists
of the elements matching `.progress-step`, in document order. -/
def updateProgressIndicators (currentStep : Int) (steps : List (List String)) :
    List (List String) :=
  updateStepsFrom currentStep 0 steps

/-! ## Fallback image (`js/lazy-loading.js`) -/

/-- The 64 characters of the base64 alphabet. -/
def base64Alphabet : List Char :=
  "ABCDEFGHIJKLMNOPQRSTUVWXYZabcdefghijklmnopqrstuvwxyz0123456789+/".toList

/-- The base64 character of a 6-bit value. -/
def base64Char (n : Nat) : Char := base64Alphabet.getD n '='

/-- Base64 encoding of a list of bytes, with `=` padding. -/
def base64Encode : List Nat → List Char
  | a :: b :: c :: rest =>
    base64Char (a / 4) :: base64Char (a % 4 * 16 + b / 16) ::
      base64Char (b % 16 * 4 + c / 64) :: base64Char (c % 64) :: base64Encode rest
  | [a, b] =>
    [base64Char (a / 4), base64Char (a % 4 * 16 + b / 16), base64Char (b % 16 * 4), '=']
  | [a] => [base64Char (a / 4), base64Char (a % 4 * 16), '=', '=']
  | [] => []

/-- `btoa(string)`: `none` is the `InvalidCharacterError` raised when a character
lies above U+00FF. -/
def btoa (s : String) : Option String :=
  if s.toList.all (fun c => decide (c.toNat ≤ 255)) then
    some ⟨base64Encode (s.toList.map Char.toNat)⟩
  else none

/-- The template literal of `createFallbackImage` up to `${altText}`. -/
def svgHead : String :=
  "\n        <svg width=\"300\" height=\"200\" viewBox=\"0 0 300 200\" fill=\"none\" xmlns=\"http://www.w3.org/2000/svg\">\n            <rect width=\"300\" height=\"200\" fill=\"#F3F4F6\"/>\n            <text x=\"150\" y=\"80\" font-family=\"Arial, sans-serif\" font-size=\"48\" fill=\"#9CA3AF\" text-anchor=\"middle\">🐾</text>\n            <text x=\"150\" y=\"130\" font-family=\"Arial, sans-serif\" font-size=\"14\" fill=\"#6B7280\" text-anchor=\"middle\">"

/-- The template literal of `createFallbackImage` after `${altText}`. -/
def svgTail : String :=
  "</text>\n        </svg>\n    "

/-- `createFallbackImage(altText)`; `none` is the exception raised by `btoa`. -/
def createFallbackImage (altText : String) : Option String :=
  let svg := svgHead ++ altText ++ svgTail
  match btoa svg with
  | some encoded => some ("data:image/svg+xml;base64," ++ encoded)
  | none => none

/-- An `img` element, as `handleImageError` reads and writes it. -/
structure Img where
  /-- Property `src`. -/
  src : String
  /-- Property `alt`, empty when the attribute is absent. -/
  alt : String
  deriving DecidableEq, Repr

/-- What `handleImageError` leaves behind: the image, whether the call was
aborted by an exception, and whether the retry timer was set. -/
structure ImageOutcome where
  img : Img
  raised : Bool
  retryScheduled : Bool
  deriving DecidableEq, Repr

/-- `handleImageError(img)` up to the point where the retry timer is set. -/
def handleImageError (img : Img) : ImageOutcome :=
  -- `img.alt || 'Pet Photo'`
  match createFallbackImage (if img.alt = "" then "Pet Photo" else img.alt) with
  | some fallbackSrc =>
    { img := { img with src := fallbackSrc }, raised := false, retryScheduled := true }
  | none => { img := img, raised := true, retryScheduled := false }

/-- Four progress steps carrying classes left over from an earlier state. -/
def sampleSteps : List (List String) :=
  [["progress-step", "active"], ["progress-step"],
   ["progress-step", "completed", "active"], ["progress-step", "pending", "completed"]]

/-! ## Basic facts -/

theorem arrIncludes_iff (xs : List String) (v : Option String) :
    arrIncludes xs v = true ↔ ∃ s, v = some s ∧ s ∈ xs := by
  unfold arrIncludes
  rw [List.any_eq_true]
  constructor
  · rintro ⟨x, hx, h⟩
    exact ⟨x, (of_decide_eq_true h).symm, hx⟩
  · rintro ⟨s, rfl, hs⟩
    exact ⟨s, hs, decide_eq_true rfl⟩

theorem strIncludes_iff (s t : String) :
    strIncludes s t = true ↔ t.toList <:+: s.toList := by
  unfold strIncludes
  exact decide_eq_true_iff

theorem length_pos_iff_ne_nil {α : Type} (xs : List α) :
    decide (xs.length > 0) = true ↔ xs ≠ [] := by
  cases xs <;> simp

theorem petMatchesFilters_eq_all (toLowerCase : String → String) (card : Card) (filters : Filters) :
    petMatchesFilters toLowerCase card filters =
      (passesDimension toLowerCase card filters .species &&
        passesDimension toLowerCase card filters .age &&
        passesDimension toLowerCase card filters .size &&
        passesDimension toLowerCase card filters .personality) := by
  unfold petMatchesFilters passesDimension
  simp only []
  generalize (decide (filters.species.length > 0) && !arrIncludes filters.species card.species) = a
  generalize (decide (filters.age.length > 0) && !arrIncludes filters.age card.age) = b
  generalize (decide (filters.size.length > 0) && !arrIncludes filters.size card.size) = c
  generalize (decide (filters.personality.length > 0) &&
      !filters.personality.any (fun trait =>
        strIncludes (toLowerCase (card.personality.getD "")) (toLowerCase trait))) = d
  cases a <;> cases b <;> cases c <;> cases d <;> rfl

theorem passes_species_iff (toLowerCase : String → String) (card : Card) (filters : Filters) :
    passesDimension toLowerCase card filters .species = true ↔
      (filters.species = [] ∨ ∃ s, card.species = some s ∧ s ∈ filters.species) := by
  unfold passesDimension
  rw [← arrIncludes_iff]
  cases h : filters.species <;> simp

theorem passes_age_iff (toLowerCase : String → String) (card : Card) (filters : Filters) :
    passesDimension toLowerCase card filters .age = true ↔
      (filters.age = [] ∨ ∃ s, card.age = some s ∧ s ∈ filters.age) := by
  unfold passesDimension
  rw [← arrIncludes_iff]
  cases h : filters.age <;> simp

theorem passes_size_iff (toLowerCase : String → String) (card : Card) (filters : Filters) :
    passesDimension toLowerCase card filters .size = true ↔
      (filters.size = [] ∨ ∃ s, card.size = some s ∧ s ∈ filters.size) := by
  unfold passesDimension
  rw [← arrIncludes_iff]
  cases h : filters.size <;> simp

theorem passes_personality_iff (toLowerCase : String → String) (card : Card) (filters : Filters) :
    passesDimension toLowerCase card filters .personality = true ↔
      (filters.personality = [] ∨
        ∃ trait ∈ filters.personality,
          (toLowerCase trait).toList <:+: (toLowerCase (card.personality.getD "")).toList) := by
  unfold passesDimension
  cases h : filters.personality with
  | nil => simp
  | cons a l =>
    simp only [List.length_cons, gt_iff_lt, Nat.zero_lt_succ, decide_True, Bool.true_and,
      Bool.not_not, List.any_eq_true, strIncludes_iff]
    simp

/-! ## The filter predicate -/

/-- C1: `petMatchesFilters` returns true exactly when the four dimension checks
all hold: the species, age and size selections are each empty or contain the
card's attribute, and the personality selection is empty or has a trait whose
lower-cased text occurs in the card's lower-cased personality text, lower case
being taken by the runtime's `toLowerCase`, whichever function that is.
Running the four checks in any order gives the same verdict. -/
theorem petMatchesFilters_iff_all_dimensions (toLowerCase : String → String)
    (card : Card) (filters : Filters)
    (order : List Dimension)
    (horder : order.Perm
      [Dimension.species, Dimension.age, Dimension.size, Dimension.personality]) :
    (petMatchesFilters toLowerCase card filters = true ↔
      (filters.species = [] ∨ ∃ s, card.species = some s ∧ s ∈ filters.species) ∧
      (filters.age = [] ∨ ∃ s, card.age = some s ∧ s ∈ filters.age) ∧
      (filters.size = [] ∨ ∃ s, card.size = some s ∧ s ∈ filters.size) ∧
      (filters.personality = [] ∨
        ∃ trait ∈ filters.personality,
          (toLowerCase trait).toList <:+: (toLowerCase (card.personality.getD "")).toList)) ∧
    matchesInOrder toLowerCase order card filters = petMatchesFilters toLowerCase card filters := by
  constructor
  · rw [petMatchesFilters_eq_all]
    simp only [Bool.and_eq_true, passes_species_iff, passes_age_iff, passes_size_iff,
      passes_personality_iff, and_assoc]
  · rw [Bool.eq_iff_iff, petMatchesFilters_eq_all]
    unfold matchesInOrder
    simp only [List.all_eq_true, Bool.and_eq_true, horder.mem_iff]
    constructor
    · intro h
      exact ⟨⟨⟨h _ (by simp), h _ (by simp)⟩, h _ (by simp)⟩, h _ (by simp)⟩
    · rintro ⟨⟨⟨h1, h2⟩, h3⟩, h4⟩ d _
      cases d <;> assumption

/-- C1, at a dog card and the selection species = {dog, cat}, personality =
{play}, with the checks run in the reverse of the source order; and at the
personality text `Énergique, Doux` with the selection personality =
{énergique}, where the checks hold and the card matches. -/
theorem petMatchesFilters_iff_all_dimensions_witness :
    matchesInOrder latin1LowerCase
        [Dimension.personality, Dimension.size, Dimension.age, Dimension.species]
        playfulCard
        { species := ["dog", "cat"], age := [], size := [], personality := ["play"] } =
      petMatchesFilters latin1LowerCase playfulCard
        { species := ["dog", "cat"], age := [], size := [], personality := ["play"] } ∧
    petMatchesFilters latin1LowerCase energiqueCard
      { species := ["dog"], age := [], size := [], personality := ["énergique"] } = true :=
  ⟨(petMatchesFilters_iff_all_dimensions latin1LowerCase playfulCard
      { species := ["dog", "cat"], age := [], size := [], personality := ["play"] }
      [Dimension.personality, Dimension.size, Dimension.age, Dimension.species]
      (by decide)).2,
    (petMatchesFilters_iff_all_dimensions latin1LowerCase energiqueCard
      { species := ["dog"], age := [], size := [], personality := ["énergique"] }
      [Dimension.species, Dimension.age, Dimension.size, Dimension.personality]
      (List.Perm.refl _)).1.mpr
      ⟨Or.inr ⟨"dog", rfl, by decide⟩, Or.inl rfl, Or.inl rfl,
        Or.inr ⟨"énergique", by decide, by decide⟩⟩⟩

/-- C2: with all four selections empty, `petMatchesFilters` returns true for
every card, whatever its attributes and whether or not they are present. -/
theorem petMatchesFilters_empty_selection (toLowerCase : String → String) (card : Card) :
    petMatchesFilters toLowerCase card
      { species := [], age := [], size := [], personality := [] } = true := by
  simp [petMatchesFilters]

/-- C3: when the species selection is non-empty and the card's `data-species`
is absent or not in it, `petMatchesFilters` returns false whatever the other
selections and attributes are; likewise for age and for size.  The function is
total, so an absent attribute raises nothing. -/
theorem petMatchesFilters_false_of_dimension_miss (toLowerCase : String → String)
    (card : Card) (filters : Filters)
    (hmiss :
      (filters.species ≠ [] ∧ ∀ s, card.species = some s → s ∉ filters.species) ∨
      (filters.age ≠ [] ∧ ∀ s, card.age = some s → s ∉ filters.age) ∨
      (filters.size ≠ [] ∧ ∀ s, card.size = some s → s ∉ filters.size)) :
    petMatchesFilters toLowerCase card filters = false := by
  rw [← Bool.not_eq_true, petMatchesFilters_eq_all]
  simp only [Bool.and_eq_true, passes_species_iff, passes_age_iff, passes_size_iff]
  rintro ⟨⟨⟨hs, ha⟩, hz⟩, -⟩
  rcases hmiss with ⟨hne, h⟩ | ⟨hne, h⟩ | ⟨hne, h⟩
  · rcases hs with hs | ⟨s, h1, h2⟩
    · exact hne hs
    · exact h s h1 h2
  · rcases ha with ha | ⟨s, h1, h2⟩
    · exact hne ha
    · exact h s h1 h2
  · rcases hz with hz | ⟨s, h1, h2⟩
    · exact hne hz
    · exact h s h1 h2

/-- C3, at a card without `data-species` and the selection species = {dog}. -/
theorem petMatchesFilters_false_of_dimension_miss_witness :
    petMatchesFilters latin1LowerCase bareCard
      { species := ["dog"], age := [], size := [], personality := [] } = false :=
  petMatchesFilters_false_of_dimension_miss latin1LowerCase bareCard
    { species := ["dog"], age := [], size := [], personality := [] }
    (Or.inl ⟨by decide, fun s h => by simp [bareCard] at h⟩)

/-- C4: for a card that passes the species, age and size checks and a non-empty
personality selection, `petMatchesFilters` returns true exactly when some
selected trait, lower-cased, occurs in the card's lower-cased personality text,
a missing `data-personality` counting as the empty text; lower case is taken
by the runtime's `toLowerCase`, whichever function that is. -/
theorem petMatchesFilters_personality_any (toLowerCase : String → String)
    (card : Card) (filters : Filters)
    (hspecies : filters.species = [] ∨ ∃ s, card.species = some s ∧ s ∈ filters.species)
    (hage : filters.age = [] ∨ ∃ s, card.age = some s ∧ s ∈ filters.age)
    (hsize : filters.size = [] ∨ ∃ s, card.size = some s ∧ s ∈ filters.size)
    (hpersonality : filters.personality ≠ []) :
    petMatchesFilters toLowerCase card filters = true ↔
      ∃ trait ∈ filters.personality,
        (toLowerCase trait).toList <:+: (toLowerCase (card.personality.getD "")).toList := by
  rw [petMatchesFilters_eq_all]
  simp only [Bool.and_eq_true, passes_species_iff, passes_age_iff, passes_size_iff,
    passes_personality_iff]
  constructor
  · rintro ⟨-, h | h⟩
    · exact absurd h hpersonality
    · exact h
  · intro h
    exact ⟨⟨⟨hspecies, hage⟩, hsize⟩, Or.inr h⟩

/-- C4, at the personality text `Playful, Gentle` and the selection
personality = {play}: the card matches; and at the personality text
`Énergique, Doux` and the selection personality = {ÉNERGIQUE}: the card
matches, the case of the accented letter being folded on both sides. -/
theorem petMatchesFilters_personality_any_witness :
    petMatchesFilters latin1LowerCase playfulCard
      { species := [], age := [], size := [], personality := ["play"] } = true ∧
    petMatchesFilters latin1LowerCase energiqueCard
      { species := [], age := [], size := [], personality := ["ÉNERGIQUE"] } = true :=
  ⟨(petMatchesFilters_personality_any latin1LowerCase playfulCard
      { species := [], age := [], size := [], personality := ["play"] }
      (Or.inl rfl) (Or.inl rfl) (Or.inl rfl) (by decide)).mpr
      ⟨"play", by decide, by decide⟩,
    (petMatchesFilters_personality_any latin1LowerCase energiqueCard
      { species := [], age := [], size := [], personality := ["ÉNERGIQUE"] }
      (Or.inl rfl) (Or.inl rfl) (Or.inl rfl) (by decide)).mpr
      ⟨"ÉNERGIQUE", by decide, by decide⟩⟩

/-! ## Facts about the search loop -/

theorem searchCard_none (toLowerCase : String → String)
    (searchTerm : String) (card : Card) (h : card.petName = none) :
    searchCard toLowerCase searchTerm card = none := by
  unfold searchCard
  rw [h]

theorem searchCard_some (toLowerCase : String → String)
    (searchTerm : String) (card : Card) (name : String)
    (h : card.petName = some name) :
    searchCard toLowerCase searchTerm card =
      some
        (if (decide (searchTerm = "") ||
              (strIncludes (toLowerCase name) searchTerm ||
                strIncludes ((card.petDescription.map toLowerCase).getD "") searchTerm)) = true
          then (if card.hidden = true then card else { card with display := "block" })
          else { card with display := "none" }) := by
  unfold searchCard
  rw [h]
  cases card.petDescription <;> cases card.hidden <;> simp <;> split <;> rfl

theorem searchCard_hidden (toLowerCase : String → String) (searchTerm : String) (card card' : Card)
    (h : searchCard toLowerCase searchTerm card = some card') :
    card'.hidden = card.hidden ∧ card'.fixed = card.fixed := by
  cases hn : card.petName with
  | none => rw [searchCard_none toLowerCase _ _ hn] at h; exact absurd h (by simp)
  | some name =>
    rw [searchCard_some toLowerCase _ _ _ hn] at h
    injection h with h
    subst h
    split
    · split <;> exact ⟨rfl, rfl⟩
    · exact ⟨rfl, rfl⟩

theorem searchCard_of_filter_hidden (toLowerCase : String → String)
    (searchTerm : String) (card card' : Card)
    (h : searchCard toLowerCase searchTerm card = some card')
    (hh : card.hidden = true) (hd : card.display = "none") : card' = card := by
  cases hn : card.petName with
  | none => rw [searchCard_none toLowerCase _ _ hn] at h; exact absurd h (by simp)
  | some name =>
    rw [searchCard_some toLowerCase _ _ _ hn] at h
    injection h with h
    subst h
    rw [if_pos hh]
    split
    · rfl
    · cases card
      simp_all

theorem searchCards_getElem? (toLowerCase : String → String) (searchTerm : String) :
    ∀ (cards : List Card) (i : Nat) (card : Card), cards[i]? = some card →
      (searchCards toLowerCase searchTerm cards).1[i]? = some card ∨
      ∃ card', searchCard toLowerCase searchTerm card = some card' ∧
        (searchCards toLowerCase searchTerm cards).1[i]? = some card' := by
  intro cards
  induction cards with
  | nil => intro i card h; simp at h
  | cons c rest ih =>
    intro i card h
    unfold searchCards
    cases hc : searchCard toLowerCase searchTerm c with
    | none => exact Or.inl h
    | some c' =>
      cases i with
      | zero =>
        simp only [List.getElem?_cons_zero, Option.some.injEq] at h
        subst h
        exact Or.inr ⟨c', hc, by simp⟩
      | succ n =>
        simp only [List.getElem?_cons_succ] at h
        simpa using ih n card h

theorem searchCards_of_names (toLowerCase : String → String) (searchTerm : String) :
    ∀ (cards : List Card), (∀ card ∈ cards, card.petName ≠ none) →
      (searchCards toLowerCase searchTerm cards).2 = false ∧
      ∀ (i : Nat) (card : Card), cards[i]? = some card →
        ∃ card', searchCard toLowerCase searchTerm card = some card' ∧
          (searchCards toLowerCase searchTerm cards).1[i]? = some card' := by
  intro cards
  induction cards with
  | nil =>
    intro _
    exact ⟨rfl, fun i card h => by simp at h⟩
  | cons c rest ih =>
    intro hnames
    have hrest := ih (fun card hc => hnames card (List.mem_cons_of_mem _ hc))
    have hc : ∃ c', searchCard toLowerCase searchTerm c = some c' := by
      have := hnames c (List.mem_cons_self _ _)
      cases hn : c.petName with
      | none => exact absurd hn this
      | some n => exact ⟨_, searchCard_some toLowerCase searchTerm c n hn⟩
    obtain ⟨c', hc'⟩ := hc
    unfold searchCards
    rw [hc']
    refine ⟨hrest.1, ?_⟩
    intro i card h
    cases i with
    | zero =>
      simp only [List.getElem?_cons_zero, Option.some.injEq] at h
      subst h
      exact ⟨c', hc', by simp⟩
    | succ n =>
      simp only [List.getElem?_cons_succ] at h
      simpa using hrest.2 n card h

theorem searchCards_fixed (toLowerCase : String → String) (searchTerm : String) :
    ∀ (cards : List Card),
      (searchCards toLowerCase searchTerm cards).1.map Card.fixed = cards.map Card.fixed := by
  intro cards
  induction cards with
  | nil => rfl
  | cons c rest ih =>
    unfold searchCards
    cases hc : searchCard toLowerCase searchTerm c with
    | none => rfl
    | some c' =>
      simp only [List.map_cons, ih, (searchCard_hidden toLowerCase searchTerm c c' hc).2]

theorem handleSearch_cards (toLowerCase : String → String) (value : String) (p : Page) :
    (handleSearch toLowerCase value p).page.cards =
      (searchCards toLowerCase (toLowerCase value) p.cards).1 := by
  unfold handleSearch
  simp only []
  split <;> rfl

/-! ## Facts about the passes over the cards -/

theorem petMatchesFilters_fixed (toLowerCase : String → String) (card : Card) (filters : Filters) :
    petMatchesFilters toLowerCase card.fixed filters =
      petMatchesFilters toLowerCase card filters := rfl

theorem applyFilters_cards (toLowerCase : String → String) (p : Page) :
    (applyFilters toLowerCase p).cards =
      p.cards.map (fun card =>
        if petMatchesFilters toLowerCase card (getActiveFilters p) = true then
          { card with hidden := false, display := "block" }
        else { card with hidden := true, display := "none" }) := rfl

theorem applyFilters_frame (toLowerCase : String → String)
    (p : Page) : (applyFilters toLowerCase p).frame = p.frame := by
  unfold Page.frame
  rw [applyFilters_cards, List.map_map]
  congr 2
  funext card
  simp only [Function.comp]
  split <;> rfl

theorem updatePetCounts_frame (p : Page) : (updatePetCounts p).frame = p.frame := by
  unfold Page.frame updatePetCounts
  simp

theorem handleSearch_frame (toLowerCase : String → String) (value : String) (p : Page) :
    (handleSearch toLowerCase value p).page.frame = p.frame := by
  unfold handleSearch
  simp only []
  split
  · unfold Page.frame
    simp only [searchCards_fixed]
  · rw [updatePetCounts_frame]
    unfold Page.frame
    simp only [searchCards_fixed]

theorem dispatch_frame (toLowerCase : String → String)
    (p : Page) (event : Event) : (dispatch toLowerCase p event).frame = p.frame := by
  cases event with
  | change index =>
    unfold dispatch
    simp only []
    split
    · split
      · unfold handleFilterChange
        rw [updatePetCounts_frame, applyFilters_frame]
        rfl
      · rfl
    · rfl
  | input value =>
    unfold dispatch
    simp only []
    split
    · rename_i heq
      rw [handleSearch_frame]
      unfold Page.frame
      simp [heq]
    · rfl

theorem run_frame (toLowerCase : String → String)
    (events : List Event) : ∀ (p : Page), (run toLowerCase p events).frame = p.frame := by
  induction events with
  | nil => intro p; rfl
  | cons event rest ih =>
    intro p
    show (run toLowerCase (dispatch toLowerCase p event) rest).frame = p.frame
    rw [ih, dispatch_frame]

theorem map_const_of_isSome_eq {α : Type} (a b : Option α) (text : String)
    (h : a.isSome = b.isSome) : a.map (fun _ => text) = b.map (fun _ => text) := by
  cases a <;> cases b <;> simp_all

theorem Page.eq_of_fields (q r : Page) (hcards : q.cards = r.cards)
    (hinputs : q.inputs = r.inputs) (hsearch : q.petSearch = r.petSearch)
    (havailable : q.availableCount = r.availableCount)
    (hadopted : q.adoptedCount = r.adoptedCount) (htotal : q.totalCount = r.totalCount) :
    q = r := by
  cases q
  cases r
  simp_all

theorem updatePetCounts_absorb (r q : Page) (hcards : r.cards = q.cards)
    (hinputs : r.inputs = q.inputs) (hsearch : r.petSearch = q.petSearch)
    (havailable : r.availableCount.isSome = q.availableCount.isSome)
    (hadopted : r.adoptedCount.isSome = q.adoptedCount.isSome)
    (htotal : r.totalCount.isSome = q.totalCount.isSome) :
    updatePetCounts r = updatePetCounts q := by
  unfold updatePetCounts availablePets adoptedPets
  rw [hcards, hinputs, hsearch]
  apply Page.eq_of_fields
  · rfl
  · rfl
  · rfl
  · exact map_const_of_isSome_eq _ _ _ havailable
  · exact map_const_of_isSome_eq _ _ _ hadopted
  · exact map_const_of_isSome_eq _ _ _ htotal

theorem shown_available_length (cards : List Card) :
    ((cards.map (fun card => { card with hidden := false, display := "block" })).filter
        (fun card => card.inAvailable && !card.hidden)).length =
      (cards.map Card.fixed).countP (fun card => card.inAvailable) := by
  rw [← List.countP_eq_length_filter, List.countP_map, List.countP_map]
  apply List.countP_congr
  intro card _
  simp [Card.fixed]

theorem shown_adopted_length (cards : List Card) :
    ((cards.map (fun card => { card with hidden := false, display := "block" })).filter
        (fun card => card.inAdopted && !card.hidden)).length =
      (cards.map Card.fixed).countP (fun card => card.inAdopted) := by
  rw [← List.countP_eq_length_filter, List.countP_map, List.countP_map]
  apply List.countP_congr
  intro card _
  simp [Card.fixed]

theorem countP_fixed_available (cards : List Card) :
    (cards.map Card.fixed).countP (fun card => card.inAvailable) =
      cards.countP (fun card => card.inAvailable) := by
  rw [List.countP_map]
  rfl

theorem countP_fixed_adopted (cards : List Card) :
    (cards.map Card.fixed).countP (fun card => card.inAdopted) =
      cards.countP (fun card => card.inAdopted) := by
  rw [List.countP_map]
  rfl

/-! ## Filters and search together -/

/-- C5: on the five-card page, checking species = dog and typing `fluffy` end
in the same checkbox state and the same search text in either order; the three
dogs pass the filters and only Fluffy matches the search; yet Rex and Max are
displayed when the search came first and not displayed when the filter came
first: `applyFilters` writes `display = 'block'` on every card passing the
filters, over what the search had written. -/
theorem applyFilters_overrides_search :
    (run latin1LowerCase shelterPage [Event.input "fluffy", Event.change 0]).inputs =
        (run latin1LowerCase shelterPage [Event.change 0, Event.input "fluffy"]).inputs ∧
      shelterPage.cards.map (fun card =>
          petMatchesFilters latin1LowerCase card
            (getActiveFilters
              (run latin1LowerCase shelterPage [Event.input "fluffy", Event.change 0]))) =
        [true, true, true, false, false] ∧
      shelterPage.cards.map (searchHiddenAsSpecified latin1LowerCase "fluffy") =
        [false, true, true, true, true] ∧
      (run latin1LowerCase shelterPage [Event.input "fluffy", Event.change 0]).petSearch =
        some "fluffy" ∧
      (run latin1LowerCase shelterPage [Event.change 0, Event.input "fluffy"]).petSearch =
        some "fluffy" ∧
      (run latin1LowerCase shelterPage [Event.input "fluffy", Event.change 0]).cards.map displayed =
        [true, true, true, false, false] ∧
      (run latin1LowerCase shelterPage [Event.change 0, Event.input "fluffy"]).cards.map displayed =
        [true, false, false, false, false] := by
  decide

/-- C6: a card carrying the filter-hidden mark (class `hidden`, display `none`)
comes out of `handleSearch` unchanged, whatever the search text: it keeps the
mark and is still not displayed.  This holds for the document `handleSearch`
leaves behind whether or not the handler ran to its end. -/
theorem handleSearch_keeps_filter_hidden (toLowerCase : String → String)
    (value : String) (p : Page) (i : Nat) (card : Card)
    (hcard : p.cards[i]? = some card) (hhidden : card.hidden = true)
    (hdisplay : card.display = "none") :
    ∃ card', (handleSearch toLowerCase value p).page.cards[i]? = some card' ∧
      card'.hidden = true ∧ card'.display = "none" ∧ displayed card' = false ∧
      card' = card := by
  have hshown : displayed card = false := by simp [displayed, hdisplay]
  rw [handleSearch_cards]
  rcases searchCards_getElem? toLowerCase (toLowerCase value) p.cards i card hcard with
    h | ⟨card', hs, h⟩
  · exact ⟨card, h, hhidden, hdisplay, hshown, rfl⟩
  · have heq := searchCard_of_filter_hidden toLowerCase _ card card' hs hhidden hdisplay
    subst heq
    exact ⟨card', h, hhidden, hdisplay, hshown, rfl⟩

/-- C6, at the five-card page filtered to dogs: the cat Tom is filter-hidden,
and searching for `tom`, which its name contains, leaves it hidden. -/
theorem handleSearch_keeps_filter_hidden_witness :
    ∃ card',
      (handleSearch latin1LowerCase "tom"
          (run latin1LowerCase shelterPage [Event.change 0])).page.cards[3]? = some card' ∧
      card'.hidden = true ∧ card'.display = "none" ∧ displayed card' = false ∧
      card' = { sampleCard "cat" "Tom" "shy" true with hidden := true, display := "none" } :=
  handleSearch_keeps_filter_hidden latin1LowerCase "tom"
    (run latin1LowerCase shelterPage [Event.change 0]) 3
    { sampleCard "cat" "Tom" "shy" true with hidden := true, display := "none" }
    (by decide) rfl rfl

/-- C7: on the five-card page with species = dog checked the counts read
2 Available, 1 Adopted, 3 Total; after `fluffy` is typed, which only the
available dog Fluffy matches, one available and no adopted card is displayed,
and `updatePetCounts` still writes 2 Available, 1 Adopted, 3 Total: it counts
the cards without the class `hidden`, which the search never sets. -/
theorem updatePetCounts_ignores_search :
    (run latin1LowerCase shelterPage [Event.change 0]).availableCount = some "2 Available" ∧
      (run latin1LowerCase shelterPage [Event.change 0]).adoptedCount = some "1 Adopted" ∧
      (run latin1LowerCase shelterPage [Event.change 0]).totalCount = some "3 Total" ∧
      ((run latin1LowerCase shelterPage [Event.change 0, Event.input "fluffy"]).cards.filter
          (fun card => card.inAvailable && displayed card)).length = 1 ∧
      ((run latin1LowerCase shelterPage [Event.change 0, Event.input "fluffy"]).cards.filter
          (fun card => card.inAdopted && displayed card)).length = 0 ∧
      (run latin1LowerCase shelterPage [Event.change 0, Event.input "fluffy"]).availableCount =
        some "2 Available" ∧
      (run latin1LowerCase shelterPage [Event.change 0, Event.input "fluffy"]).adoptedCount =
        some "1 Adopted" ∧
      (run latin1LowerCase shelterPage [Event.change 0, Event.input "fluffy"]).totalCount =
        some "3 Total" := by
  decide

/-- C8 as stated fails: on the five-card page, where no card is filter-hidden,
the search text of one space is empty once trimmed and so should hide no card,
yet `handleSearch` hides every card but Fluffy, whose description holds a
space; and the text ` rex`, which trims to a term Rex matches, hides Rex too. -/
theorem handleSearch_does_not_trim :
    shelterPage.cards.map (searchHiddenAsSpecified latin1LowerCase " ") =
        [false, false, false, false, false] ∧
      (handleSearch latin1LowerCase " " shelterPage).page.cards.map (fun card => !displayed card) =
        [false, true, true, true, true] ∧
      shelterPage.cards.map (searchHiddenAsSpecified latin1LowerCase " rex") =
        [true, false, true, true, true] ∧
      (handleSearch latin1LowerCase " rex" shelterPage).page.cards.map
          (fun card => !displayed card) =
        [true, true, true, true, true] := by
  decide

/-- C8, amended: when every card has a name element, `handleSearch` runs to its
end, keeps every hidden mark, and sets a card's display to `none` exactly when
the lower-cased search text, taken as typed and not trimmed, is non-empty and
occurs neither in the lower-cased name nor in the lower-cased description (a
missing description being empty); otherwise a card without the hidden mark
gets display `block` and a card with it keeps its display.  Lower case is
taken by the runtime's `toLowerCase`, whichever function that is. -/
theorem handleSearch_display (toLowerCase : String → String) (value : String) (p : Page)
    (hnames : ∀ card ∈ p.cards, card.petName ≠ none)
    (i : Nat) (card : Card) (name : String)
    (hcard : p.cards[i]? = some card) (hname : card.petName = some name) :
    (handleSearch toLowerCase value p).raised = false ∧
    ∃ card', (handleSearch toLowerCase value p).page.cards[i]? = some card' ∧
      card'.hidden = card.hidden ∧
      card'.display =
        if toLowerCase value ≠ "" ∧
            ¬ (toLowerCase value).toList <:+: (toLowerCase name).toList ∧
            ¬ (toLowerCase value).toList <:+:
              ((card.petDescription.map toLowerCase).getD "").toList
        then "none"
        else if card.hidden = true then card.display else "block" := by
  obtain ⟨hraised, hall⟩ := searchCards_of_names toLowerCase (toLowerCase value) p.cards hnames
  constructor
  · unfold handleSearch
    simp only [hraised]
    rfl
  · obtain ⟨card', hs, hget⟩ := hall i card hcard
    rw [handleSearch_cards]
    refine ⟨card', hget, (searchCard_hidden toLowerCase _ _ _ hs).1, ?_⟩
    rw [searchCard_some toLowerCase _ _ _ hname] at hs
    injection hs with hs
    subst hs
    have hcond :
        (decide (toLowerCase value = "") ||
            (strIncludes (toLowerCase name) (toLowerCase value) ||
              strIncludes ((card.petDescription.map toLowerCase).getD "")
                (toLowerCase value))) = true ↔
          ¬ (toLowerCase value ≠ "" ∧
            ¬ (toLowerCase value).toList <:+: (toLowerCase name).toList ∧
            ¬ (toLowerCase value).toList <:+:
              ((card.petDescription.map toLowerCase).getD "").toList) := by
      rw [Bool.or_eq_true, Bool.or_eq_true, decide_eq_true_iff, strIncludes_iff,
        strIncludes_iff]
      tauto
    by_cases hmiss : toLowerCase value ≠ "" ∧
        ¬ (toLowerCase value).toList <:+: (toLowerCase name).toList ∧
        ¬ (toLowerCase value).toList <:+:
          ((card.petDescription.map toLowerCase).getD "").toList
    · rw [if_neg (fun h => hcond.mp h hmiss), if_pos hmiss]
    · rw [if_pos (hcond.mpr hmiss), if_neg hmiss]
      by_cases hh : card.hidden = true
      · rw [if_pos hh, if_pos hh]
      · rw [if_neg hh, if_neg hh]

/-- C8 amended, at the five-card page and the search text `REX`: the handler
runs to its end and Fluffy, whose name and description lack `rex`, gets
display `none`; and at the card named `éclair` and the search text `ÉCLAIR`:
the lower-cased name holds the lower-cased text and the card gets display
`block`. -/
theorem handleSearch_display_witness :
    ((handleSearch latin1LowerCase "REX" shelterPage).raised = false ∧
      ∃ card', (handleSearch latin1LowerCase "REX" shelterPage).page.cards[0]? = some card' ∧
        card'.hidden = false ∧ card'.display = "none") ∧
    ((handleSearch latin1LowerCase "ÉCLAIR" eclairPage).raised = false ∧
      ∃ card', (handleSearch latin1LowerCase "ÉCLAIR" eclairPage).page.cards[0]? = some card' ∧
        card'.hidden = false ∧ card'.display = "block") := by
  constructor
  · obtain ⟨hraised, card', hget, hhidden, hdisplay⟩ :=
      handleSearch_display latin1LowerCase "REX" shelterPage (by decide) 0
        (sampleCard "dog" "Fluffy" "soft coat" true) "Fluffy" (by decide) rfl
    refine ⟨hraised, card', hget, hhidden, ?_⟩
    rw [hdisplay]
    decide
  · obtain ⟨hraised, card', hget, hhidden, hdisplay⟩ :=
      handleSearch_display latin1LowerCase "ÉCLAIR" eclairPage (by decide) 0
        (sampleCard "cat" "éclair" "chat vif" true) "éclair" (by decide) rfl
    refine ⟨hraised, card', hget, hhidden, ?_⟩
    rw [hdisplay]
    decide

/-! ## Idempotence and reset -/

/-- C9: with the checkbox state unchanged, a second `applyFilters` leaves the
document as the first left it, and a second `applyFilters` followed by
`updatePetCounts` leaves every card's hidden mark and display and the three
count texts as they were after the first. -/
theorem applyFilters_idempotent (toLowerCase : String → String) (p : Page) :
    applyFilters toLowerCase (applyFilters toLowerCase p) = applyFilters toLowerCase p ∧
      handleFilterChange toLowerCase (handleFilterChange toLowerCase p) =
        handleFilterChange toLowerCase p := by
  have hcards : ∀ q : Page, q.inputs = p.inputs →
      (applyFilters toLowerCase p).cards = q.cards →
        (applyFilters toLowerCase q).cards = (applyFilters toLowerCase p).cards := by
    intro q hin hq
    have hf : getActiveFilters q = getActiveFilters p := by
      unfold getActiveFilters
      rw [hin]
    rw [applyFilters_cards toLowerCase q, ← hq, applyFilters_cards toLowerCase p, List.map_map, hf]
    apply List.map_congr_left
    intro card _
    simp only [Function.comp]
    by_cases h : petMatchesFilters toLowerCase card (getActiveFilters p) = true
    · rw [if_pos h, if_pos (by exact h)]
    · rw [if_neg h, if_neg (by exact h)]
  constructor
  · exact Page.eq_of_fields _ _ (hcards (applyFilters toLowerCase p) rfl rfl) rfl rfl rfl rfl rfl
  · unfold handleFilterChange
    apply updatePetCounts_absorb
    · exact hcards (updatePetCounts (applyFilters toLowerCase p)) rfl rfl
    · rfl
    · rfl
    · show (Option.map _ (applyFilters toLowerCase p).availableCount).isSome = _
      cases (applyFilters toLowerCase p).availableCount <;> rfl
    · show (Option.map _ (applyFilters toLowerCase p).adoptedCount).isSome = _
      cases (applyFilters toLowerCase p).adoptedCount <;> rfl
    · show (Option.map _ (applyFilters toLowerCase p).totalCount).isSome = _
      cases (applyFilters toLowerCase p).totalCount <;> rfl

/-- C10: after any sequence of checkbox changes and search inputs,
`clearAllFilters` leaves every filter checkbox unchecked, the search box (when
there is one) empty, every card without the hidden mark and with display
`block`, the cards otherwise as they were, and writes into each count display
that exists the number of all cards of the Available section, of the Adopted
section, and the sum of the two. -/
theorem clearAllFilters_resets (toLowerCase : String → String) (p : Page) (events : List Event) :
    (∀ checkbox ∈ (clearAllFilters (run toLowerCase p events)).inputs,
        checkbox.filterOption = true → checkbox.checked = false) ∧
    (clearAllFilters (run toLowerCase p events)).petSearch = p.petSearch.map (fun _ => "") ∧
    (∀ card ∈ (clearAllFilters (run toLowerCase p events)).cards,
        card.hidden = false ∧ card.display = "block" ∧ displayed card = true) ∧
    (clearAllFilters (run toLowerCase p events)).cards.map Card.fixed = p.cards.map Card.fixed ∧
    (clearAllFilters (run toLowerCase p events)).availableCount =
      p.availableCount.map (fun _ =>
        toString (p.cards.countP (fun card => card.inAvailable)) ++ " Available") ∧
    (clearAllFilters (run toLowerCase p events)).adoptedCount =
      p.adoptedCount.map (fun _ =>
        toString (p.cards.countP (fun card => card.inAdopted)) ++ " Adopted") ∧
    (clearAllFilters (run toLowerCase p events)).totalCount =
      p.totalCount.map (fun _ =>
        toString (p.cards.countP (fun card => card.inAvailable) +
          p.cards.countP (fun card => card.inAdopted)) ++ " Total") := by
  have hframe := run_frame toLowerCase events p
  generalize run toLowerCase p events = r at hframe
  unfold Page.frame at hframe
  simp only [Prod.mk.injEq] at hframe
  obtain ⟨hcards, hsearch, hav, had, htot⟩ := hframe
  have havn : (availablePets (showAllPets
      { r with
        inputs := r.inputs.map (fun checkbox =>
          if checkbox.filterOption then { checkbox with checked := false } else checkbox)
        petSearch := r.petSearch.map (fun _ => "") })).length =
      p.cards.countP (fun card => card.inAvailable) := by
    unfold availablePets showAllPets
    simp only []
    rw [shown_available_length, hcards, countP_fixed_available]
  have hadn : (adoptedPets (showAllPets
      { r with
        inputs := r.inputs.map (fun checkbox =>
          if checkbox.filterOption then { checkbox with checked := false } else checkbox)
        petSearch := r.petSearch.map (fun _ => "") })).length =
      p.cards.countP (fun card => card.inAdopted) := by
    unfold adoptedPets showAllPets
    simp only []
    rw [shown_adopted_length, hcards, countP_fixed_adopted]
  refine ⟨?_, ?_, ?_, ?_, ?_, ?_, ?_⟩
  · intro checkbox hmem hfo
    unfold clearAllFilters updatePetCounts showAllPets at hmem
    simp only [List.mem_map] at hmem
    obtain ⟨c, _, hc⟩ := hmem
    by_cases h : c.filterOption = true
    · rw [if_pos h] at hc
      subst hc
      rfl
    · rw [if_neg h] at hc
      subst hc
      exact absurd hfo h
  · show r.petSearch.map (fun _ => "") = p.petSearch.map (fun _ => "")
    exact map_const_of_isSome_eq _ _ _ hsearch
  · intro card hmem
    unfold clearAllFilters updatePetCounts showAllPets at hmem
    simp only [List.mem_map] at hmem
    obtain ⟨c, _, hc⟩ := hmem
    subst hc
    exact ⟨rfl, rfl, by simp [displayed]⟩
  · rw [← hcards]
    unfold clearAllFilters updatePetCounts showAllPets
    simp only [List.map_map]
    rfl
  · unfold clearAllFilters
    simp only []
    unfold updatePetCounts
    simp only []
    rw [havn]
    exact map_const_of_isSome_eq _ _ _ hav
  · unfold clearAllFilters
    simp only []
    unfold updatePetCounts
    simp only []
    rw [hadn]
    exact map_const_of_isSome_eq _ _ _ had
  · unfold clearAllFilters
    simp only []
    unfold updatePetCounts
    simp only []
    rw [havn, hadn]
    exact map_const_of_isSome_eq _ _ _ htot

/-! ## Search over cards without a name element -/

theorem searchCards_raised_iff (toLowerCase : String → String) (searchTerm : String) :
    ∀ (cards : List Card),
      (searchCards toLowerCase searchTerm cards).2 = true ↔
        ∃ card ∈ cards, card.petName = none := by
  intro cards
  induction cards with
  | nil => simp [searchCards]
  | cons c rest ih =>
    unfold searchCards
    cases hn : c.petName with
    | none =>
      rw [searchCard_none toLowerCase _ _ hn]
      simp [hn]
    | some name =>
      rw [searchCard_some toLowerCase _ _ _ hn]
      simp only [ih, List.mem_cons, exists_eq_or_imp, hn]
      simp

theorem handleSearch_raised_iff (toLowerCase : String → String) (value : String) (p : Page) :
    (handleSearch toLowerCase value p).raised = true ↔ ∃ card ∈ p.cards, card.petName = none := by
  rw [← searchCards_raised_iff toLowerCase (toLowerCase value) p.cards]
  unfold handleSearch
  simp only []
  split <;> simp_all

/-- C11: on a page whose first card has no `.pet-name` element, `handleSearch`
is aborted by the `TypeError` at that card: no card is touched (Rex, which the
term does not match, keeps its display) and the counts are not rewritten.  A
card without `.pet-description` raises nothing and is searched with an empty
description. -/
theorem handleSearch_raises_without_name :
    (handleSearch latin1LowerCase "zzz" namelessPage).raised = true ∧
      (handleSearch latin1LowerCase "zzz" namelessPage).page = namelessPage ∧
      (handleSearch latin1LowerCase "zzz" namelessPage).page.cards.map displayed = [true, true] ∧
      (handleSearch latin1LowerCase "zzz" undescribedPage).raised = false ∧
      (handleSearch latin1LowerCase "zzz" undescribedPage).page.cards.map displayed = [false] := by
  decide

/-! ## The age rule of `validateField` -/

theorem validateField_age_of_nan (value : String) (hvalue : trim value ≠ "")
    (hnan : parseInt (trim value) = none) :
    validateField (ageField value) = { isValid := true, errorMessage := "" } := by
  unfold validateField ageField
  simp [hvalue, hnan, numberLt, numberGt]

theorem validateField_age_of_number (value : String) (n : Int) (hvalue : trim value ≠ "")
    (hnumber : parseInt (trim value) = some n) :
    validateField (ageField value) =
      if n < 18 ∨ n > 100 then
        { isValid := false, errorMessage := "Age must be between 18 and 100" }
      else { isValid := true, errorMessage := "" } := by
  unfold validateField ageField
  simp [hvalue, hnumber, numberLt, numberGt]

/-- C12: for the required text field named `age`, the value `abc` is accepted:
`parseInt` gives `NaN`, which is neither below 18 nor above 100, so
`validateField` returns true with no message; so are `25abc` and `18.9`, whose
leading digits are in range.  The values `17` and `101` are rejected with the
message `Age must be between 18 and 100`, and `18` and `100` are accepted. -/
theorem validateField_accepts_non_numeric_age :
    parseInt (trim "abc") = none ∧
      validateField (ageField "abc") = { isValid := true, errorMessage := "" } ∧
      validateField (ageField "25abc") = { isValid := true, errorMessage := "" } ∧
      validateField (ageField "18.9") = { isValid := true, errorMessage := "" } ∧
      validateField (ageField "17") =
        { isValid := false, errorMessage := "Age must be between 18 and 100" } ∧
      validateField (ageField "101") =
        { isValid := false, errorMessage := "Age must be between 18 and 100" } ∧
      validateField (ageField "18") = { isValid := true, errorMessage := "" } ∧
      validateField (ageField "100") = { isValid := true, errorMessage := "" } := by
  decide

/-! ## The fallback image -/

theorem btoa_none_of_mem (s : String) (c : Char) (hmem : c ∈ s.toList)
    (hhigh : 255 < c.toNat) : btoa s = none := by
  unfold btoa
  rw [if_neg]
  intro hall
  rw [List.all_eq_true] at hall
  have := of_decide_eq_true (hall c hmem)
  omega

set_option maxRecDepth 100000 in
theorem paw_mem_svgHead : Char.ofNat 128062 ∈ svgHead.toList := by
  decide

/-- C13: `createFallbackImage` returns for no alt text at all: the SVG template
holds the paw character U+1F43E, above U+00FF, so `btoa` raises on every
input, `Pet Photo` included; `handleImageError` is aborted by that exception
before it writes `img.src` and before it sets the retry timer.  On text within
the Latin-1 range `btoa` does encode: `Pet Photo` gives `UGV0IFBob3Rv`. -/
theorem createFallbackImage_always_raises (altText : String) (img : Img) :
    createFallbackImage altText = none ∧
      handleImageError img = { img := img, raised := true, retryScheduled := false } ∧
      btoa "Pet Photo" = some "UGV0IFBob3Rv" := by
  have hnone : ∀ text : String, createFallbackImage text = none := by
    intro text
    have hb : btoa (svgHead ++ text ++ svgTail) = none := by
      apply btoa_none_of_mem _ (Char.ofNat 128062)
      · simp only [String.toList, String.data_append, List.mem_append]
        exact Or.inl (Or.inl paw_mem_svgHead)
      · decide
    unfold createFallbackImage
    simp only [hb]
  refine ⟨hnone altText, ?_, by decide⟩
  unfold handleImageError
  rw [hnone]

/-! ## Progress indicators -/

theorem mem_classAdd (token added : String) (classes : List String) :
    token ∈ classAdd added classes ↔ token = added ∨ token ∈ classes := by
  unfold classAdd
  by_cases h : classes.contains added = true
  · rw [if_pos h]
    constructor
    · exact Or.inr
    · rintro (rfl | hm)
      · exact List.elem_iff.mp h
      · exact hm
  · rw [if_neg h, List.mem_append, List.mem_singleton]
    exact or_comm

theorem mem_classRemove (token : String) (removed classes : List String) :
    token ∈ classRemove removed classes ↔ token ∈ classes ∧ token ∉ removed := by
  unfold classRemove
  rw [List.mem_filter]
  simp

theorem classAdd_of_mem (added : String) (classes : List String) (h : added ∈ classes) :
    classAdd added classes = classes := by
  unfold classAdd
  rw [if_pos (List.elem_iff.mpr h)]

theorem classRemove_twice (removed classes : List String) :
    classRemove removed (classRemove removed classes) = classRemove removed classes := by
  unfold classRemove
  rw [List.filter_filter]
  simp

theorem classRemove_classAdd_twice (added : String) (removed classes : List String)
    (h : added ∉ removed) :
    classRemove removed (classAdd added (classRemove removed (classAdd added classes))) =
      classRemove removed (classAdd added classes) := by
  rw [classAdd_of_mem, classRemove_twice]
  rw [mem_classRemove, mem_classAdd]
  exact ⟨Or.inl rfl, h⟩

theorem updateStep_twice (currentStep : Int) (index : Nat) (step : List String) :
    updateStep currentStep index (updateStep currentStep index step) =
      updateStep currentStep index step := by
  unfold updateStep
  simp only []
  split
  · exact classRemove_classAdd_twice _ _ _ (by decide)
  · split
    · exact classRemove_classAdd_twice _ _ _ (by decide)
    · exact classRemove_classAdd_twice _ _ _ (by decide)

theorem updateStepsFrom_getElem? (currentStep : Int) :
    ∀ (steps : List (List String)) (start i : Nat),
      (updateStepsFrom currentStep start steps)[i]? =
        (steps[i]?).map (updateStep currentStep (start + i)) := by
  intro steps
  induction steps with
  | nil => intro start i; simp [updateStepsFrom]
  | cons step rest ih =>
    intro start i
    unfold updateStepsFrom
    cases i with
    | zero => simp
    | succ n =>
      simp only [List.getElem?_cons_succ, ih]
      have hidx : start + 1 + n = start + (n + 1) := by omega
      rw [hidx]

theorem updateStepsFrom_twice (currentStep : Int) :
    ∀ (steps : List (List String)) (start : Nat),
      updateStepsFrom currentStep start (updateStepsFrom currentStep start steps) =
        updateStepsFrom currentStep start steps := by
  intro steps
  induction steps with
  | nil => intro start; rfl
  | cons step rest ih =>
    intro start
    simp only [updateStepsFrom, updateStep_twice, ih]

/-- C14: after `updateProgressIndicators(currentStep)` the step at 1-based
position `i + 1` carries, of the classes `completed`, `active` and `pending`,
exactly `completed` when `i + 1 < currentStep`, exactly `active` when
`i + 1 = currentStep` and exactly `pending` when `i + 1 > currentStep`,
whatever classes it carried before; its other classes are as they were; and a
second call with the same `currentStep` changes nothing. -/
theorem updateProgressIndicators_one_state (currentStep : Int) (steps : List (List String))
    (i : Nat) (classes : List String) (hstep : steps[i]? = some classes) :
    ∃ classes', (updateProgressIndicators currentStep steps)[i]? = some classes' ∧
      ((i : Int) + 1 < currentStep →
        "completed" ∈ classes' ∧ "active" ∉ classes' ∧ "pending" ∉ classes') ∧
      ((i : Int) + 1 = currentStep →
        "active" ∈ classes' ∧ "completed" ∉ classes' ∧ "pending" ∉ classes') ∧
      ((i : Int) + 1 > currentStep →
        "pending" ∈ classes' ∧ "completed" ∉ classes' ∧ "active" ∉ classes') ∧
      (∀ token, token ≠ "completed" → token ≠ "active" → token ≠ "pending" →
        (token ∈ classes' ↔ token ∈ classes)) ∧
      updateProgressIndicators currentStep (updateProgressIndicators currentStep steps) =
        updateProgressIndicators currentStep steps := by
  refine ⟨updateStep currentStep i classes, ?_, ?_, ?_, ?_, ?_, ?_⟩
  · unfold updateProgressIndicators
    rw [updateStepsFrom_getElem?, hstep]
    simp
  · intro h
    unfold updateStep
    simp only []
    rw [if_pos h]
    simp [mem_classRemove, mem_classAdd]
  · intro h
    unfold updateStep
    simp only []
    rw [if_neg (by omega), if_pos h]
    simp [mem_classRemove, mem_classAdd]
  · intro h
    unfold updateStep
    simp only []
    rw [if_neg (by omega), if_neg (by omega)]
    simp [mem_classRemove, mem_classAdd]
  · intro token h1 h2 h3
    unfold updateStep
    simp only []
    split
    · simp [mem_classRemove, mem_classAdd, h1, h2, h3]
    · split <;> simp [mem_classRemove, mem_classAdd, h1, h2, h3]
  · exact updateStepsFrom_twice currentStep steps 0

/-- C14, at four steps carrying stale classes and the step of the page
`/interview.html`, which is 2: the third step ends with `pending` alone. -/
theorem updateProgressIndicators_one_state_witness :
    ∃ classes',
      (updateProgressIndicators (getCurrentStep "/interview.html") sampleSteps)[2]? =
        some classes' ∧
      "pending" ∈ classes' ∧ "completed" ∉ classes' ∧ "active" ∉ classes' := by
  obtain ⟨classes', hget, -, -, hpending, -, -⟩ :=
    updateProgressIndicators_one_state (getCurrentStep "/interview.html") sampleSteps 2
      ["progress-step", "completed", "active"] (by decide)
  exact ⟨classes', hget, hpending (by decide)⟩

end PetHaven
